import Mathlib

/-!
Verification development for the simple-ddl-generator service (app.py).

The Python source is shallowly embedded below.  Strings are modelled as
Lean `String` / `List Char`; Python dicts that are used as string-keyed
maps become association lists with last-write-wins lookup; Python `None`
becomes `Option.none`; a raised `ValueError` becomes `Except.error`
carrying the raised message.  The only external collaborator used by the
core, the `re` regex engine, appears in two shapes: the fixed patterns of
the source (word-boundary keyword search, line and block comment removal,
the alias and comment patterns) are embedded directly as character
scanners, while the caller-supplied patterns of `regex`-typed inference
rules go through an abstract `RegexOracle` (`none` models a pattern that
fails to compile, mirroring the `try ... except: pass` of the source).

Embedding notes, stated once here:
  - `Char.toUpper` / `Char.toLower` only map ASCII letters, matching
    Python for ASCII and for the CJK characters appearing in the source.
  - `isPySpace` is the ASCII whitespace set of `str.isspace`.
  - `isWordChar` models `\w` / `\b` of the `re` module for ASCII word
    characters and the CJK ideograph range used by the source data.
-/

namespace DdlGen

/-- Python `str.isspace` on the ASCII range (space, tab, lf, cr, vt, ff). -/
def isPySpace (c : Char) : Bool :=
  c = ' ' || c = '\t' || c = '\n' || c = '\r' || c = '\x0b' || c = '\x0c'

/-- Regex word character for the word-boundary `\b` checks: ASCII
alphanumerics, underscore, and the CJK unified ideograph block. -/
def isWordChar (c : Char) : Bool :=
  c.isAlphanum || c = '_' || (0x4E00 ≤ c.toNat && c.toNat ≤ 0x9FFF)

/-- Uppercase a character list, `str.upper` for ASCII letters. -/
def upperL (l : List Char) : List Char := l.map Char.toUpper

/-- Lowercase a character list, `str.lower` for ASCII letters. -/
def lowerL (l : List Char) : List Char := l.map Char.toLower

/-- Python `str.strip()` on a character list. -/
def pyStripL (l : List Char) : List Char :=
  ((l.dropWhile isPySpace).reverse.dropWhile isPySpace).reverse

/-- Python `str.strip()`. -/
def pyStrip (s : String) : String := String.mk (pyStripL s.data)

/-- Python `str.lower()`. -/
def lowerS (s : String) : String := String.mk (lowerL s.data)

/-- Python `str.upper()`. -/
def upperS (s : String) : String := String.mk (upperL s.data)

/-- Python substring test `needle in hay` on character lists. -/
def hasSub : List Char → List Char → Bool
  | [], needle => needle.isEmpty
  | h :: t, needle => needle.isPrefixOf (h :: t) || hasSub t needle

/-- Python substring test `needle in hay` on strings. -/
def containsS (hay needle : String) : Bool := hasSub hay.data needle.data

/-- Python `str.startswith`. -/
def startsWithS (s p : String) : Bool := p.data.isPrefixOf s.data

/-- Python `str.endswith`. -/
def endsWithS (s p : String) : Bool := p.data.isSuffixOf s.data

/-- Python `' '.join` style join with a single separator character list. -/
def joinWith (sep : List Char) : List (List Char) → List Char
  | [] => []
  | [x] => x
  | x :: y :: rest => x ++ sep ++ joinWith sep (y :: rest)

/-- Python `'\n'.join` on strings, used for the final DDL assembly. -/
def joinLines : List String → String
  | [] => ""
  | [x] => x
  | x :: y :: rest => x ++ "\n" ++ joinLines (y :: rest)

/-- Python `str.split('\n')`: split at every newline, keeping empties. -/
def splitOnNl : List Char → List (List Char)
  | [] => [[]]
  | c :: rest =>
    if c = '\n' then [] :: splitOnNl rest
    else
      match splitOnNl rest with
      | [] => [[c]]
      | l :: ls => (c :: l) :: ls

/-- Single-quote character, `chr 39`. -/
def apos : Char := Char.ofNat 39

/-- Single-quote as a one-character string. -/
def aposS : String := String.mk [apos]

/-- Python `str.strip` with the quote set used by the source (`'` and `"`). -/
def stripQuotes (l : List Char) : List Char :=
  let isQ : Char → Bool := fun c => c = apos || c = '"'
  ((l.dropWhile isQ).reverse.dropWhile isQ).reverse

/-- Python `str.split()` with no argument: split on whitespace runs,
dropping empty tokens. -/
def pySplitWsFuel : Nat → List Char → List (List Char)
  | 0, _ => []
  | _ + 1, [] => []
  | fuel + 1, c :: rest =>
    if isPySpace c then pySplitWsFuel fuel rest
    else
      (c :: rest.takeWhile (fun x => !isPySpace x)) ::
        pySplitWsFuel fuel (rest.dropWhile (fun x => !isPySpace x))

/-- Python `str.split()` with no argument; the fuel is structural and
every step consumes at least one character, so the input length as fuel
never runs out. -/
def pySplitWs (l : List Char) : List (List Char) := pySplitWsFuel l.length l

/-- Cut one line at its first `--` marker (`re.sub(r'--.*$', '', ...)`,
restricted to a single line). -/
def cutLineComment : List Char → List Char
  | [] => []
  | '-' :: '-' :: _ => []
  | c :: rest => c :: cutLineComment rest

/-- Removal of `--` line comments from a multi-line text:
`re.sub(r'--.*$', '', text, flags=re.MULTILINE)`. -/
def removeLineComments (l : List Char) : List Char :=
  joinWith ['\n'] ((splitOnNl l).map cutLineComment)

/-- Scan for the first closing `*/`, returning the remainder after it.
Models the non-greedy `.*?\*/` tail of the block-comment pattern. -/
def dropThroughClose : List Char → Option (List Char)
  | [] => none
  | [_] => none
  | a :: b :: rest =>
    if a = '*' && b = '/' then some rest else dropThroughClose (b :: rest)

/-- Removal of `/* ... */` block comments:
`re.sub(r'/\*.*?\*/', '', text, flags=re.DOTALL)`. -/
def removeBCFuel : Nat → List Char → List Char
  | 0, l => l
  | _ + 1, [] => []
  | _ + 1, [c] => [c]
  | fuel + 1, a :: b :: rest =>
    if a = '/' && b = '*' then
      match dropThroughClose rest with
      | some r => removeBCFuel fuel r
      | none => a :: removeBCFuel fuel (b :: rest)
    else a :: removeBCFuel fuel (b :: rest)

/-- Removal of `/* ... */` block comments (fuel of the input length; every
step consumes at least one character). -/
def removeBlockComments (l : List Char) : List Char := removeBCFuel l.length l

/-- Case-insensitive comparison of a prefix of `s` against the (already
uppercase) word `w`: the take/upper image of `s` must equal `w`. -/
def ciPrefix (w : List Char) (s : List Char) : Bool :=
  upperL (s.take w.length) = w

/-- Boundary test for the character after a matched word. -/
def nextBoundaryOk (w : List Char) (s : List Char) : Bool :=
  match s.drop w.length with
  | [] => true
  | c :: _ => !isWordChar c

/-- Scanner behind `re.search(r'\bWORD\b', s, re.IGNORECASE)`: the index of
the leftmost occurrence of the uppercase word `w` (case-insensitive, both
ends at a word boundary).  `prev` is the character before the current
suffix, `none` at the start of the text. -/
def findWordCIAux (w : List Char) : List Char → Option Char → Nat → Option Nat
  | [], _, _ => none
  | c :: rest, prev, i =>
    if (match prev with | none => true | some p => !isWordChar p) &&
        ciPrefix w (c :: rest) && nextBoundaryOk w (c :: rest) then some i
    else findWordCIAux w rest (some c) (i + 1)

/-- Leftmost word-boundary case-insensitive occurrence of `w` in `s`. -/
def findWordCI (w : List Char) (s : List Char) : Option Nat :=
  findWordCIAux w s none 0

/-- The `for i in range(select_start, len(sql))` scan of
`try_parse_select_from`: find a depth-zero standalone `FROM`.  `prev` is
`sql[i-1]` (the last character of the SELECT match at the first step). -/
def findFromAux : List Char → Option Char → Int → Nat → Option Nat
  | [], _, _, _ => none
  | c :: rest, prev, d, i =>
    if c = '(' then findFromAux rest (some c) (d + 1) (i + 1)
    else if c = ')' then findFromAux rest (some c) (d - 1) (i + 1)
    else if d = 0 && upperL ((c :: rest).take 4) = "FROM".data &&
        (match (c :: rest).drop 4 with | [] => true | x :: _ => isPySpace x) &&
        (match prev with | none => true | some p => isPySpace p) then some i
    else findFromAux rest (some c) d (i + 1)

/-- One attempt of the alias pattern `\s+AS\s+([^\s,]+)$` anchored at the
current suffix: returns the alias token on success. -/
def aliasMatchAt (s : List Char) : Option (List Char) :=
  let w1 := s.takeWhile isPySpace
  if w1.isEmpty then none
  else
    let r1 := s.dropWhile isPySpace
    if ciPrefix "AS".data r1 then
      let r2 := r1.drop 2
      let w2 := r2.takeWhile isPySpace
      if w2.isEmpty then none
      else
        let t := r2.dropWhile isPySpace
        if !t.isEmpty && t.all (fun c => !isPySpace c && c ≠ ',') then some t
        else none
    else none

/-- Leftmost match of `re.search(r'\s+AS\s+([^\s,]+)$', expr, re.IGNORECASE)`:
returns the match start index and the alias token. -/
def findAliasAux : List Char → Nat → Option (Nat × List Char)
  | [], _ => none
  | c :: rest, i =>
    match aliasMatchAt (c :: rest) with
    | some t => some (i, t)
    | none => findAliasAux rest (i + 1)

/-- Group extraction for `re.search(r'--\s*(.+)$', line)` at a found `--`:
greedy `\s*` backs off one character when everything after `--` is
whitespace, so that `.+` keeps one character. -/
def commentGroup (rest : List Char) : List Char :=
  let k := (rest.takeWhile isPySpace).length
  rest.drop (min k (rest.length - 1))

/-- Leftmost match of `re.search(r'--\s*(.+)$', line)`: start index of the
`--` and the stripped-later group text; `none` when the line has no `--`
followed by at least one character. -/
def findCommentMatch : List Char → Nat → Option (Nat × List Char)
  | [], _ => none
  | [_], _ => none
  | a :: b :: rest, i =>
    if a = '-' && b = '-' then
      if rest.isEmpty then none else some (i, commentGroup rest)
    else findCommentMatch (b :: rest) (i + 1)

/-- Scanner behind `re.sub(r'\bDISTINCT\s+', '', expr, flags=re.IGNORECASE)`.
`prevWord` records whether the previous original character is a word
character (so that `\b` holds exactly when it is false). -/
def removeDistinctFuel : Nat → List Char → Bool → List Char
  | 0, l, _ => l
  | _ + 1, [], _ => []
  | fuel + 1, c :: rest, prevWord =>
    if !prevWord && ciPrefix "DISTINCT".data (c :: rest) &&
        (match (c :: rest).drop 8 with | [] => false | x :: _ => isPySpace x) then
      removeDistinctFuel fuel (((c :: rest).drop 8).dropWhile isPySpace) false
    else c :: removeDistinctFuel fuel rest (isWordChar c)

/-- Removal of every `\bDISTINCT\s+` occurrence (`re.sub`, IGNORECASE);
fuel of the input length, every step consumes at least one character. -/
def removeDistinct (l : List Char) : List Char :=
  removeDistinctFuel l.length l false

/-- One parsed output column, the dict
`{'name': field_name, 'alias': alias, 'comment': comment}` of
`parse_field_expression`. -/
structure Field where
  name : String
  aliasOpt : Option String
  comment : String
deriving DecidableEq, Repr

/-- The comma-splitting loop shared by `split_fields` and
`try_parse_field_list`: `cur` is the `current` accumulator, `d` the
`paren_count` (an integer, since the source lets it go negative). -/
def splitFieldsAux : List Char → List Char → Int → List (List Char)
  | [], cur, _ => if cur.isEmpty then [] else [pyStripL cur]
  | c :: rest, cur, d =>
    if c = '(' then splitFieldsAux rest (cur ++ [c]) (d + 1)
    else if c = ')' then splitFieldsAux rest (cur ++ [c]) (d - 1)
    else if c = ',' ∧ d = 0 then pyStripL cur :: splitFieldsAux rest [] d
    else splitFieldsAux rest (cur ++ [c]) d

/-- Source `split_fields` on a character list. -/
def split_fieldsL (l : List Char) : List (List Char) := splitFieldsAux l [] 0

/-- Source `split_fields(select_clause)`: top-level comma split. -/
def split_fields (s : String) : List String :=
  (split_fieldsL s.data).map String.mk

/-- Comment map built by `parse_select_clause`; last write wins as in a
Python dict, so lookup takes the latest binding. -/
def cmGet (m : List (List Char × List Char)) (k : List Char) (dflt : List Char) :
    List Char :=
  match m.reverse.find? (fun p => p.1 = k) with
  | some p => p.2
  | none => dflt

/-- Alias-less finishing step of `parse_field_expression`: the stored name
is `alias or name` (Python truthiness: an empty alias falls back), and the
comment is `comment_map.get(name, field_name)`. -/
def mkField (nm : List Char) (al : Option (List Char))
    (cmap : List (List Char × List Char)) : Field :=
  let field_name := match al with
    | some a => if a.isEmpty then nm else a
    | none => nm
  let comment := cmGet cmap nm field_name
  { name := String.mk field_name
    aliasOpt := al.map String.mk
    comment := String.mk comment }

/-- Source `parse_field_expression(expr, comment_map)`.  Returns `none`
exactly when the expression still contains `SELECT` or ` FROM `. -/
def parse_field_expression (expr0 : List Char)
    (cmap : List (List Char × List Char)) : Option Field :=
  let expr1 := pyStripL expr0
  if hasSub (upperL expr1) "SELECT".data || hasSub (upperL expr1) " FROM ".data then
    none
  else
    let expr := removeDistinct expr1
    match findAliasAux expr 0 with
    | some (p, tok) =>
      let main_expr := pyStripL (expr.take p)
      let al := stripQuotes tok
      some (mkField main_expr (some al) cmap)
    | none =>
      let parts := pySplitWs expr
      if parts.length > 1 then
        let last_part := stripQuotes (parts.getLastD [])
        let penult := parts.getD (parts.length - 2) []
        if !(['(', '+', '-', '*', '/', '='].any (fun op => hasSub penult [op])) then
          some (mkField (joinWith [' '] parts.dropLast) (some last_part) cmap)
        else some (mkField expr none cmap)
      else some (mkField expr none cmap)

/-- Source `parse_select_clause(select_clause)`: build the line-comment
map from the raw clause, strip comments, split, and parse every
expression. -/
def parse_select_clause (clause : List Char) : List Field :=
  let lines := splitOnNl clause
  let cmap := lines.foldl (fun m line =>
    match findCommentMatch line 0 with
    | some (p, grp) =>
      let comment := pyStripL grp
      let field_part := pyStripL (line.take p)
      if field_part.isEmpty then m
      else m ++ [(pyStripL (field_part.dropWhile (fun c => c = ',')), comment)]
    | none => m) []
  let clean := removeBlockComments (removeLineComments clause)
  (split_fieldsL clean).filterMap (fun e => parse_field_expression e cmap)

/-- Source `try_parse_select_from(sql)`: locate `\bSELECT\b`, then a
depth-zero standalone `FROM`, and parse the clause between them. -/
def try_parse_select_from (sql : List Char) : Option (List Field) :=
  match findWordCI "SELECT".data sql with
  | none => none
  | some selStart =>
    let selEnd := selStart + 6
    let tail := sql.drop selEnd
    match findFromAux tail ((sql.take selEnd).getLast?) 0 0 with
    | none => none
    | some fromLocal =>
      some (parse_select_clause (pyStripL (tail.take fromLocal)))

/-- Keyword list scanned by `try_parse_select_fields`, in source order. -/
def clauseKeywords : List (List Char) :=
  ["WHERE".data, "GROUP BY".data, "ORDER BY".data, "HAVING".data,
   "LIMIT".data, "UNION".data]

/-- Source `try_parse_select_fields(sql)`: everything after `SELECT`,
truncated at the first keyword of `clauseKeywords` (in list order, as in
the source loop with `break`). -/
def try_parse_select_fields (sql : List Char) : Option (List Field) :=
  match findWordCI "SELECT".data sql with
  | none => none
  | some selStart =>
    let clause := pyStripL (sql.drop (selStart + 6))
    let clause' :=
      match clauseKeywords.findSome?
          (fun kw => (findWordCI kw clause).map (fun i => pyStripL (clause.take i))) with
      | some c => c
      | none => clause
    some (parse_select_clause clause')

/-- Source `try_parse_field_list(sql)`: strip line and block comments from
the whole input, split, and parse with an empty comment map.  The source
inlines the same splitting loop as `split_fields`. -/
def try_parse_field_list (sql : List Char) : Option (List Field) :=
  let clean := pyStripL (removeBlockComments (removeLineComments sql))
  some ((split_fieldsL clean).filterMap (fun e => parse_field_expression e []))

deriving instance DecidableEq for Except

/-- The message of the single `ValueError` raised by `parse_sql_fields`. -/
def unparsableMsg : String := "无法解析SQL"

/-- Python truthiness of a strategy result: `None` and `[]` are falsy. -/
def truthy : Option (List Field) → Bool
  | none => false
  | some fs => !fs.isEmpty

/-- Source `parse_sql_fields(sql)`: strip, try the three strategies behind
the `'SELECT' in sql.upper()` guard, return the first truthy result, else
raise `ValueError('无法解析SQL')`. -/
def parse_sql_fields (sql : String) : Except String (List Field) :=
  let s := pyStripL sql.data
  let hasSel := hasSub (upperL s) "SELECT".data
  let r1 := if hasSel then try_parse_select_from s else none
  if truthy r1 then .ok (r1.getD [])
  else
    let r2 := if hasSel then try_parse_select_fields s else none
    if truthy r2 then .ok (r2.getD [])
    else
      let r3 := try_parse_field_list s
      if truthy r3 then .ok (r3.getD [])
      else .error unparsableMsg

/-- Caller-supplied inference rule, the dict of one `custom_rules` entry.
`matchType` and `targetField` are `Option` because the source reads them
with `.get` defaults; `dataType` is accessed with `rule['dataType']` and
is therefore a plain field. -/
structure TypeRule where
  keywords : List String
  matchType : Option String
  targetField : Option String
  dataType : String
  priority : Option Int
  precision : Option Int
  scale : Option Int
  length : Option Int
deriving DecidableEq, Repr

/-- Result of `infer_field_type`: the dict
`{'type': ..., 'precision': ..., 'scale': ..., 'length': ...}` (the
default chain omits the parameter keys, which reads back as `None`). -/
structure InferredType where
  type : String
  precision : Option Int
  scale : Option Int
  length : Option Int
deriving DecidableEq, Repr

/-- Abstract interface to `re.search(pattern, text, re.IGNORECASE)` for
caller-supplied `regex` rule patterns: `none` models a pattern on which
`re` raises (the `except: pass` path), `some b` a successful compile with
match outcome `b`. -/
structure RegexOracle where
  search : String → String → Option Bool

/-- Oracle on which every pattern fails to compile; used for concrete
evaluations that never reach a `regex` rule. -/
def noRegex : RegexOracle := ⟨fun _ _ => none⟩

/-- Effective priority: `rule.get('priority', 999)`. -/
def rulePriority (r : TypeRule) : Int := r.priority.getD 999

/-- Stable insertion into a priority-sorted list: the new element goes
before every element of equal or larger key, matching the stable
`sorted(custom_rules, key=...)` of the source since the inserted element
precedes the tail in caller order. -/
def insertRule (r : TypeRule) : List TypeRule → List TypeRule
  | [] => [r]
  | x :: xs =>
    if rulePriority x < rulePriority r then x :: insertRule r xs
    else r :: x :: xs

/-- Stable sort by ascending priority (`sorted` with the priority key). -/
def sortRules : List TypeRule → List TypeRule
  | [] => []
  | r :: rest => insertRule r (sortRules rest)

/-- Keyword test of one rule keyword, as in the inner loop of
`infer_field_type`: the target text is already lower-cased. -/
def keywordMatches (O : RegexOracle) (target_text : String) (match_type : String)
    (keyword : String) : Bool :=
  if match_type = "equals" then target_text = lowerS keyword
  else if match_type = "contains" then containsS target_text (lowerS keyword)
  else if match_type = "regex" then (O.search keyword target_text).getD false
  else false

/-- Rule-level match: the source returns the same dict for whichever
keyword of the rule matches first, so the rule matches iff any keyword
does. -/
def ruleMatches (O : RegexOracle) (name comment : String) (r : TypeRule) : Bool :=
  let match_type := r.matchType.getD "contains"
  let target_field := r.targetField.getD "name"
  let target_text := if target_field = "name" then name else comment
  r.keywords.any (fun k => keywordMatches O target_text match_type k)

/-- The `for rule in sorted_rules` loop with early return. -/
def applyRules (O : RegexOracle) (name comment : String) :
    List TypeRule → Option InferredType
  | [] => none
  | r :: rest =>
    if ruleMatches O name comment r then
      some { type := r.dataType, precision := r.precision
             scale := r.scale, length := r.length }
    else applyRules O name comment rest

/-- First rung of the default chain: the currency name set and the
currency-code CJK marker (tested on name and comment). -/
def isCurrencyRung (name comment : String) : Bool :=
  (name = "fcytp" || name = "scytp" || name = "cytp" || name = "currency_type")
    || containsS name "币种代码" || containsS comment "币种代码"

/-- Second rung: code / mode / identifier-code markers. -/
def isCodeRung (name : String) : Bool :=
  containsS name "mode" || containsS name "code" || containsS name "icode"
    || containsS name "代码" || containsS name "编码"

/-- Date marker of the third rung. -/
def hasDateMarker (name : String) : Bool :=
  containsS name "date" || containsS name "日期"

/-- Day-count marker excluded inside the third rung. -/
def hasDayMarker (name : String) : Bool :=
  containsS name "day" || containsS name "days"

/-- Default rung chain of `infer_field_type` (the code after the custom
rule loop); `name` and `comment` are already lower-cased. -/
def inferDefault (name comment : String) : InferredType :=
  if isCurrencyRung name comment then ⟨"STRING", none, none, none⟩
  else if isCodeRung name then ⟨"STRING", none, none, none⟩
  else if hasDateMarker name && !hasDayMarker name then ⟨"DATE", none, none, none⟩
  else if containsS name "time" || containsS name "timestamp"
      || containsS name "时间" then ⟨"TIMESTAMP", none, none, none⟩
  else if ["org", "trcl", "cust", "stff", "user", "dept"].any
      (fun k => containsS name k) then ⟨"STRING", none, none, none⟩
  else if ["_name", "_dscr", "_rmrk", "name", "描述", "备注"].any
      (fun k => containsS name k) then ⟨"STRING", none, none, none⟩
  else if containsS name "flag" || startsWithS name "is_"
      || containsS name "标记" || containsS name "是否" then
    ⟨"STRING", none, none, none⟩
  else if containsS name "days" || (containsS name "day" && name ≠ "weekday") then
    ⟨"DECIMAL", some 24, some 6, none⟩
  else if ["amt", "amount", "price", "ocy", "rcy", "scy", "elmn", "crdt",
      "totl", "ocpt", "金额", "价格"].any (fun k => containsS name k) then
    ⟨"DECIMAL", some 24, some 6, none⟩
  else if ["qty", "quantity", "cnt", "count", "数量"].any
      (fun k => containsS name k) then ⟨"DECIMAL", some 24, some 6, none⟩
  else ⟨"STRING", none, none, none⟩

/-- Source `infer_field_type(field_name, field_comment, custom_rules)`.
The guard `if custom_rules and isinstance(custom_rules, list)` makes both
`None` and the empty list skip the rule loop. -/
def infer_field_type (O : RegexOracle) (field_name field_comment : String)
    (custom_rules : Option (List TypeRule)) : InferredType :=
  let name := lowerS field_name
  let comment := lowerS field_comment
  let viaRules :=
    match custom_rules with
    | some rules =>
      if rules.isEmpty then none
      else applyRules O name comment (sortRules rules)
    | none => none
  match viaRules with
  | some t => t
  | none => inferDefault name comment

/-- Python `str.replace(pat, rep)` on character lists: replace every
non-overlapping occurrence, scanning left to right. -/
def replaceFuel (pat rep : List Char) : Nat → List Char → List Char
  | 0, l => l
  | _ + 1, [] => []
  | fuel + 1, c :: rest =>
    if !pat.isEmpty && pat.isPrefixOf (c :: rest) then
      rep ++ replaceFuel pat rep fuel ((c :: rest).drop pat.length)
    else c :: replaceFuel pat rep fuel rest

/-- Python `str.replace` on character lists (fuel of the input length;
every step consumes at least one character since the patterns used by the
source are non-empty). -/
def replaceL (pat rep l : List Char) : List Char :=
  replaceFuel pat rep l.length l

/-- Python `str.replace` on strings. -/
def replaceS (s pat rep : String) : String :=
  String.mk (replaceL pat.data rep.data s.data)

/-- Python truthiness of an optional number (`if precision:`): `None` and
`0` are falsy. -/
def optTruthy : Option Int → Bool
  | none => false
  | some v => !(v = 0)

/-- Decimal rendering of an optional parameter known to be truthy. -/
def intStr (o : Option Int) : String := toString (o.getD 0)

/-- Source `map_data_type(type_info, database_type)`, dict path (every
call site of the embedding passes the dict form). -/
def map_data_type (ti : InferredType) (database_type : String) : String :=
  let precision := ti.precision
  let scale := ti.scale
  let length := ti.length
  let result_type := upperS ti.type
  if database_type = "clickhouse" then
    if result_type = "STRING" then "String"
    else if result_type = "DATE" then "Date"
    else if result_type = "TIMESTAMP" then "DateTime"
    else if startsWithS result_type "DECIMAL" then
      let base_type := replaceS result_type "DECIMAL" "Decimal"
      if optTruthy precision && optTruthy scale then
        base_type ++ "(" ++ intStr precision ++ ", " ++ intStr scale ++ ")"
      else base_type
    else if startsWithS result_type "FLOAT" then
      if optTruthy precision then "Float" ++ intStr precision else "Float64"
    else if startsWithS result_type "DOUBLE" then "Float64"
    else if result_type = "VARCHAR" || result_type = "CHAR" then "String"
    else result_type
  else if database_type = "postgresql" then
    if result_type = "STRING" then "TEXT"
    else if result_type = "TIMESTAMP" then "TIMESTAMP"
    else if startsWithS result_type "DECIMAL" then
      if optTruthy precision && optTruthy scale then
        "DECIMAL(" ++ intStr precision ++ ", " ++ intStr scale ++ ")"
      else "DECIMAL"
    else if result_type = "VARCHAR" || result_type = "CHAR" then
      if optTruthy length then result_type ++ "(" ++ intStr length ++ ")"
      else "VARCHAR(255)"
    else if startsWithS result_type "FLOAT" then "REAL"
    else if startsWithS result_type "DOUBLE" then "DOUBLE PRECISION"
    else result_type
  else
    if result_type = "STRING" then
      if database_type = "spark" || database_type = "hive" then "STRING"
      else "VARCHAR(255)"
    else if startsWithS result_type "DECIMAL" then
      if optTruthy precision && optTruthy scale then
        "DECIMAL(" ++ intStr precision ++ ", " ++ intStr scale ++ ")"
      else "DECIMAL(24, 6)"
    else if result_type = "TIMESTAMP" then
      if database_type = "mysql" || database_type = "starrocks"
          || database_type = "doris" then "DATETIME"
      else "TIMESTAMP"
    else if result_type = "VARCHAR" || result_type = "CHAR" then
      if optTruthy length then result_type ++ "(" ++ intStr length ++ ")"
      else "VARCHAR(255)"
    else if startsWithS result_type "FLOAT" then
      if optTruthy precision then "FLOAT(" ++ intStr precision ++ ")"
      else "FLOAT"
    else if startsWithS result_type "DOUBLE" then
      if optTruthy precision then "DOUBLE(" ++ intStr precision ++ ")"
      else "DOUBLE"
    else result_type

/-- One entry of `DATABASE_CONFIGS`: `comment` is the comment style
string, `add_pk` / `add_engine` are the optional flags read with `.get`
(absent keys read back falsy). -/
structure DbConfig where
  pfx : String
  commentStyle : String
  add_pk : Bool
  add_engine : Bool
deriving DecidableEq, Repr

/-- The `DATABASE_CONFIGS` table of the source, in source order. -/
def DATABASE_CONFIGS : List (String × DbConfig) :=
  [("spark", ⟨"CREATE TABLE IF NOT EXISTS", "INLINE", false, false⟩),
   ("mysql", ⟨"CREATE TABLE IF NOT EXISTS", "INLINE", true, true⟩),
   ("postgresql", ⟨"CREATE TABLE", "SEPARATE", false, false⟩),
   ("starrocks", ⟨"CREATE TABLE IF NOT EXISTS", "INLINE", false, false⟩),
   ("clickhouse", ⟨"CREATE TABLE IF NOT EXISTS", "INLINE", false, false⟩),
   ("hive", ⟨"CREATE TABLE IF NOT EXISTS", "INLINE", false, false⟩),
   ("doris", ⟨"CREATE TABLE IF NOT EXISTS", "INLINE", false, false⟩)]

/-- The `DATABASE_LABELS` table of the source. -/
def DATABASE_LABELS : List (String × String) :=
  [("spark", "Spark SQL"), ("mysql", "MySQL"), ("postgresql", "PostgreSQL"),
   ("starrocks", "StarRocks"), ("clickhouse", "ClickHouse"),
   ("hive", "Hive"), ("doris", "Doris")]

/-- Dict lookup `DATABASE_CONFIGS.get(database_type)`. -/
def configGet (database_type : String) : Option DbConfig :=
  (DATABASE_CONFIGS.find? (fun p => p.1 = database_type)).map (fun p => p.2)

/-- Dict lookup `DATABASE_LABELS.get(db_type, db_type.upper())`. -/
def labelGet (db_type : String) : String :=
  match DATABASE_LABELS.find? (fun p => p.1 = db_type) with
  | some p => p.2
  | none => upperS db_type

/-- Dict lookup `custom_rules.get(database_type, [])`. -/
def rulesGet (custom_rules : List (String × List TypeRule))
    (database_type : String) : List TypeRule :=
  match custom_rules.reverse.find? (fun p => p.1 = database_type) with
  | some p => p.2
  | none => []

/-- First loop of `select_primary_key`: first field whose lowered name
ends with `icode`. -/
def firstIcode : List Field → Option String
  | [] => none
  | f :: rest =>
    if endsWithS (lowerS f.name) "icode" then some f.name else firstIcode rest

/-- Second loop of `select_primary_key`: first field whose lowered name
ends with `id` but not with `icode`. -/
def firstPlainId : List Field → Option String
  | [] => none
  | f :: rest =>
    if endsWithS (lowerS f.name) "id" && !endsWithS (lowerS f.name) "icode" then
      some f.name
    else firstPlainId rest

/-- Source `select_primary_key(fields)`. -/
def select_primary_key (fields : List Field) : Option String :=
  match fields with
  | [] => none
  | _ =>
    match firstIcode fields with
    | some nm => some nm
    | none =>
      match firstPlainId fields with
      | some nm => some nm
      | none => (fields.head?).map (fun f => f.name)

/-- Python `str.ljust(width)`. -/
def ljust (s : String) (w : Nat) : String :=
  s ++ String.mk (List.replicate (w - s.length) ' ')

/-- Column record after type adjustment inside `generate_ddl`. -/
structure AdjField where
  name : String
  type : String
  comment : String
deriving DecidableEq, Repr

/-- The `adjusted_fields` computation of `generate_ddl`. -/
def adjustFields (O : RegexOracle) (fields : List Field)
    (db_rules : List TypeRule) (database_type : String) : List AdjField :=
  fields.map (fun f =>
    let field_type := infer_field_type O f.name f.comment (some db_rules)
    { name := f.name
      type := map_data_type field_type database_type
      comment := f.comment })

/-- Column comment text with single quotes doubled. -/
def commentLit (c : String) : String :=
  "COMMENT " ++ aposS ++ replaceS c aposS (aposS ++ aposS) ++ aposS

/-- The `ddl_parts` list of `generate_ddl`, with the dialect config as an
explicit argument (the source resolves it with
`DATABASE_CONFIGS.get(database_type, DATABASE_CONFIGS['spark'])`). -/
def generate_ddl_partsC (config : DbConfig) (O : RegexOracle)
    (fields : List Field) (custom_rules : List (String × List TypeRule))
    (database_type : String) : List String :=
  let max_name := match fields.map (fun f => f.name.length) with
    | [] => 30
    | x :: xs => (x :: xs).foldl max 0
  let max_type := 18
  let db_rules := rulesGet custom_rules database_type
  let adjusted_fields := adjustFields O fields db_rules database_type
  let fieldLines := adjusted_fields.enum.map (fun p =>
    let padded_name := ljust p.2.name max_name
    let padded_type := ljust p.2.type max_type
    let comment_text := commentLit p.2.comment
    if p.1 = 0 then "    " ++ padded_name ++ " " ++ padded_type ++ " " ++ comment_text
    else "   ," ++ padded_name ++ " " ++ padded_type ++ " " ++ comment_text)
  let pkPart :=
    if config.add_pk then
      match select_primary_key fields with
      | some pk => if pk = "" then [] else ["   ,PRIMARY KEY (" ++ pk ++ ")"]
      | none => []
    else []
  let base := (config.pfx ++ " 表名 (") :: (fieldLines ++ pkPart ++ [")"])
  let trailer :=
    if config.commentStyle = "INLINE" then
      (if config.add_engine then [" ENGINE=InnoDB"] else []) ++ [" COMMENT " ++ aposS ++ aposS]
    else
      [";", "", "COMMENT ON TABLE 表名 IS " ++ aposS ++ aposS ++ ";"] ++
        adjusted_fields.map (fun f =>
          "COMMENT ON COLUMN 表名." ++ f.name ++ " IS " ++ aposS ++
            replaceS f.comment aposS (aposS ++ aposS) ++ aposS ++ ";")
  base ++ trailer

/-- Source `generate_ddl(fields, custom_rules, database_type)` as its
`ddl_parts` list, resolving the config with the spark fallback. -/
def generate_ddl_parts (O : RegexOracle) (fields : List Field)
    (custom_rules : List (String × List TypeRule)) (database_type : String) :
    List String :=
  generate_ddl_partsC ((configGet database_type).getD
    ⟨"CREATE TABLE IF NOT EXISTS", "INLINE", false, false⟩)
    O fields custom_rules database_type

/-- Source `generate_ddl`: the joined DDL text. -/
def generate_ddl (O : RegexOracle) (fields : List Field)
    (custom_rules : List (String × List TypeRule)) (database_type : String) :
    String :=
  joinLines (generate_ddl_parts O fields custom_rules database_type)

/-- One entry of the `ddls` list of `generate_multiple_ddls`. -/
structure DdlItem where
  databaseType : String
  label : String
  ddl : String
deriving DecidableEq, Repr

/-- Result of `generate_multiple_ddls`: `{'ddl': ...}` for exactly one
generated DDL, `{'ddls': [...]}` otherwise. -/
inductive DdlResult where
  | single (ddl : String)
  | multiple (ddls : List DdlItem)
deriving DecidableEq, Repr

/-- The `for db_type in database_types` loop of `generate_multiple_ddls`:
known dialects produce an item, unknown ones are skipped. -/
def mddlItems (O : RegexOracle) (fields : List Field)
    (custom_rules : List (String × List TypeRule)) :
    List String → List DdlItem
  | [] => []
  | d :: rest =>
    if (configGet d).isSome then
      { databaseType := d, label := labelGet d
        ddl := generate_ddl O fields custom_rules d } ::
        mddlItems O fields custom_rules rest
    else mddlItems O fields custom_rules rest

/-- Source `generate_multiple_ddls(fields, custom_rules, database_types)`. -/
def generate_multiple_ddls (O : RegexOracle) (fields : List Field)
    (custom_rules : List (String × List TypeRule))
    (database_types : List String) : DdlResult :=
  match mddlItems O fields custom_rules database_types with
  | [x] => .single x.ddl
  | l => .multiple l

/-- Count of commas seen at parenthesis depth zero by the splitting scan,
starting from depth `d`. -/
def topCommasAux : List Char → Int → Nat
  | [], _ => 0
  | c :: rest, d =>
    if c = '(' then topCommasAux rest (d + 1)
    else if c = ')' then topCommasAux rest (d - 1)
    else if c = ',' ∧ d = 0 then 1 + topCommasAux rest d
    else topCommasAux rest d

/-- Number of top-level commas of a clause string. -/
def topCommas (s : String) : Nat := topCommasAux s.data 0

/-- Whether the splitting scan ends with a non-empty accumulator, given
whether it is currently non-empty (`b`) and the current depth. -/
def accEnd : List Char → Bool → Int → Bool
  | [], b, _ => b
  | c :: rest, _, d =>
    if c = '(' then accEnd rest true (d + 1)
    else if c = ')' then accEnd rest true (d - 1)
    else if c = ',' ∧ d = 0 then accEnd rest false d
    else accEnd rest true d

/-- Depth delta of one character for the parenthesis counter. -/
def parenDelta (c : Char) : Int :=
  if c = '(' then 1 else if c = ')' then -1 else 0

/-- Total parenthesis depth change over a character list. -/
def depthOf : List Char → Int
  | [] => 0
  | c :: rest => parenDelta c + depthOf rest

/-- Whether a clause ends exactly at a top-level comma: its last character
is a comma and the depth accumulated over everything before it is zero. -/
def endsWithTopComma (s : String) : Bool :=
  !s.data.isEmpty && s.data.getLastD ' ' = ',' && depthOf s.data.dropLast = 0

/-- First truthy strategy result, mirroring the early-return chain of
`parse_sql_fields`. -/
def firstTruthy (l : List (Option (List Field))) : Option (List Field) :=
  l.findSome? (fun r => if truthy r then r else none)

/-! Helper lemmas. -/

theorem append_singleton_isEmpty (cur : List Char) (c : Char) :
    (cur ++ [c]).isEmpty = false := by
  cases cur <;> rfl

theorem splitFieldsAux_length :
    ∀ (cs cur : List Char) (d : Int),
      (splitFieldsAux cs cur d).length =
        topCommasAux cs d + (if accEnd cs (!cur.isEmpty) d then 1 else 0) := by
  intro cs
  induction cs with
  | nil =>
    intro cur d
    cases cur <;> simp [splitFieldsAux, topCommasAux, accEnd]
  | cons c rest ih =>
    intro cur d
    by_cases h1 : c = '('
    · subst h1
      simp [splitFieldsAux, topCommasAux, accEnd, ih, append_singleton_isEmpty]
    · by_cases h2 : c = ')'
      · subst h2
        simp [splitFieldsAux, topCommasAux, accEnd, ih, append_singleton_isEmpty, h1]
      · by_cases h3 : c = ',' ∧ d = 0
        · obtain ⟨hc, hd⟩ := h3
          subst hc; subst hd
          have e1 : ((',' : Char) = '(') = False := by simp
          have e2 : ((',' : Char) = ')') = False := by simp
          simp only [splitFieldsAux, topCommasAux, accEnd, e1, e2, if_false,
            and_self, if_true, eq_self_iff_true, List.length_cons,
            List.isEmpty_nil, Bool.not_true]
          rw [ih]
          simp only [List.isEmpty_nil, Bool.not_true]
          omega
        · simp only [splitFieldsAux, topCommasAux, accEnd, if_neg h1,
            if_neg h2, if_neg h3]
          rw [ih]
          simp [append_singleton_isEmpty]

theorem accEnd_concat :
    ∀ (xs : List Char) (c : Char) (b : Bool) (d : Int),
      accEnd (xs ++ [c]) b d =
        (if c = ',' ∧ d + depthOf xs = 0 then false else true) := by
  intro xs
  induction xs with
  | nil =>
    intro c b d
    simp only [List.nil_append, accEnd, depthOf, Int.add_zero]
    by_cases h1 : c = '('
    · have hc : ¬(c = ',' ∧ d = 0) := by
        rintro ⟨hcc, -⟩; rw [h1] at hcc; exact absurd hcc (by decide)
      rw [if_pos h1, if_neg hc]
    · by_cases h2 : c = ')'
      · have hc : ¬(c = ',' ∧ d = 0) := by
          rintro ⟨hcc, -⟩; rw [h2] at hcc; exact absurd hcc (by decide)
        rw [if_neg h1, if_pos h2, if_neg hc]
      · by_cases h3 : c = ',' ∧ d = 0
        · rw [if_neg h1, if_neg h2, if_pos h3]
        · rw [if_neg h1, if_neg h2, if_neg h3]
  | cons x xs ih =>
    intro c b d
    rw [List.cons_append]
    have hdx : depthOf (x :: xs) = parenDelta x + depthOf xs := rfl
    simp only [accEnd]
    by_cases h1 : x = '('
    · rw [if_pos h1, ih]
      refine if_congr (and_congr_right fun _ => ?_) rfl rfl
      rw [hdx, h1]
      have hp : parenDelta '(' = 1 := by decide
      rw [hp]
      omega
    · by_cases h2 : x = ')'
      · rw [if_neg h1, if_pos h2, ih]
        refine if_congr (and_congr_right fun _ => ?_) rfl rfl
        rw [hdx, h2]
        have hp : parenDelta ')' = -1 := by decide
        rw [hp]
        omega
      · have hpd : parenDelta x = 0 := by simp [parenDelta, h1, h2]
        by_cases h3 : x = ',' ∧ d = 0
        · rw [if_neg h1, if_neg h2, if_pos h3, ih]
          refine if_congr (and_congr_right fun _ => ?_) rfl rfl
          rw [hdx, hpd]
          omega
        · rw [if_neg h1, if_neg h2, if_neg h3, ih]
          refine if_congr (and_congr_right fun _ => ?_) rfl rfl
          rw [hdx, hpd]
          omega

/-! Claim C2. -/

/-- C2 counterexample: on the clause `a,` the trimmed input is non-empty
and there is one top-level comma, yet `split_fields` emits one expression,
not two, because nothing follows the final comma. -/
theorem split_fields_count_claim_cex :
    (pyStrip "a,").data ≠ [] ∧
      (split_fields "a,").length ≠ topCommas "a," + 1 := by
  constructor <;> decide

/-- C2 (amended): the number of expressions emitted by `split_fields` is
the number of top-level commas plus one, except that the final expression
is only emitted when at least one character (possibly whitespace) follows
the last top-level comma: an input ending at a top-level comma yields
exactly the comma count, and only the genuinely empty input yields zero. -/
theorem split_fields_count (s : String) :
    (split_fields s).length =
      topCommas s +
        (if s.data.isEmpty then 0 else if endsWithTopComma s then 0 else 1) := by
  have base : (split_fields s).length =
      topCommasAux s.data 0 + (if accEnd s.data false 0 then 1 else 0) := by
    unfold split_fields split_fieldsL
    rw [List.length_map, splitFieldsAux_length]
    simp only [List.isEmpty_nil, Bool.not_true]
  rw [base]
  unfold topCommas endsWithTopComma
  rcases List.eq_nil_or_concat s.data with hnil | ⟨xs, c, hcc⟩
  · rw [hnil]
    simp [accEnd, topCommasAux]
  · rw [hcc, List.concat_eq_append, accEnd_concat]
    simp only [List.concat_eq_append, append_singleton_isEmpty,
      Bool.not_false, Bool.true_and, List.getLastD_concat,
      List.dropLast_concat, Bool.false_eq_true, if_false]
    by_cases hc : c = ','
    · by_cases hd : depthOf xs = 0
      · have hcond : c = ',' ∧ 0 + depthOf xs = 0 := ⟨hc, by omega⟩
        rw [if_pos hcond]
        simp [hc, hd]
      · have hcond : ¬(c = ',' ∧ 0 + depthOf xs = 0) := by
          rintro ⟨-, hz⟩; exact hd (by omega)
        rw [if_neg hcond]
        simp [hc, hd]
    · have hcond : ¬(c = ',' ∧ 0 + depthOf xs = 0) := by
        rintro ⟨hcc2, -⟩; exact hc hcc2
      rw [if_neg hcond]
      simp [hc]

/-! Claim C3 helpers. -/

theorem hasSub_of_isPrefixOf {l w : List Char} (h : w.isPrefixOf l = true) :
    hasSub l w = true := by
  cases l with
  | nil =>
    cases w with
    | nil => rfl
    | cons a t => simp [List.isPrefixOf] at h
  | cons c rest => simp [hasSub, h]

theorem hasSub_cons_of_hasSub {c : Char} {rest w : List Char}
    (h : hasSub rest w = true) : hasSub (c :: rest) w = true := by
  simp [hasSub, h]

theorem findWordCIAux_hasSub (w : List Char) :
    ∀ (s : List Char) (prev : Option Char) (i j : Nat),
      findWordCIAux w s prev i = some j → hasSub (upperL s) w = true := by
  intro s
  induction s with
  | nil => intro prev i j h; simp [findWordCIAux] at h
  | cons c rest ih =>
    intro prev i j h
    simp only [findWordCIAux] at h
    split at h
    · rename_i hcond
      simp only [Bool.and_eq_true] at hcond
      obtain ⟨⟨-, hci⟩, -⟩ := hcond
      have heq : upperL ((c :: rest).take w.length) = w := by
        simpa [ciPrefix] using hci
      have hdecomp : upperL (c :: rest) = w ++ upperL ((c :: rest).drop w.length) := by
        unfold upperL at heq ⊢
        conv_lhs => rw [← List.take_append_drop w.length (c :: rest)]
        rw [List.map_append, heq]
      have hpre : w.isPrefixOf (upperL (c :: rest)) = true := by
        rw [hdecomp]
        exact List.isPrefixOf_iff_prefix.mpr (List.prefix_append _ _)
      exact hasSub_of_isPrefixOf hpre
    · have hrest := ih (some c) (i + 1) j h
      have : upperL (c :: rest) = Char.toUpper c :: upperL rest := rfl
      rw [this]
      exact hasSub_cons_of_hasSub hrest

theorem strategies_none_of_no_select {s : List Char}
    (h : hasSub (upperL s) "SELECT".data = false) :
    try_parse_select_from s = none ∧ try_parse_select_fields s = none := by
  have hnone : findWordCI "SELECT".data s = none := by
    cases hfw : findWordCI "SELECT".data s with
    | none => rfl
    | some j =>
      have := findWordCIAux_hasSub "SELECT".data s none 0 j hfw
      rw [h] at this
      exact absurd this (by decide)
  constructor <;> simp [try_parse_select_from, try_parse_select_fields, hnone]

theorem guard_select_from_eq (s : List Char) :
    (if hasSub (upperL s) "SELECT".data then try_parse_select_from s else none) =
      try_parse_select_from s := by
  by_cases hsel : hasSub (upperL s) "SELECT".data
  · rw [if_pos hsel]
  · rw [if_neg hsel]
    have hf : hasSub (upperL s) "SELECT".data = false := by simpa using hsel
    exact ((strategies_none_of_no_select hf).1).symm

theorem guard_select_fields_eq (s : List Char) :
    (if hasSub (upperL s) "SELECT".data then try_parse_select_fields s else none) =
      try_parse_select_fields s := by
  by_cases hsel : hasSub (upperL s) "SELECT".data
  · rw [if_pos hsel]
  · rw [if_neg hsel]
    have hf : hasSub (upperL s) "SELECT".data = false := by simpa using hsel
    exact ((strategies_none_of_no_select hf).2).symm

theorem firstTruthy_cons (r : Option (List Field))
    (rest : List (Option (List Field))) :
    firstTruthy (r :: rest) = if truthy r then r else firstTruthy rest := by
  by_cases h : truthy r = true
  · cases r with
    | none => simp [truthy] at h
    | some fs => simp [firstTruthy, List.findSome?, h]
  · simp only [Bool.not_eq_true] at h
    simp [firstTruthy, List.findSome?, h]

theorem truthy_getD {r : Option (List Field)} (h : truthy r = true) :
    r = some (r.getD []) := by
  cases r with
  | none => simp [truthy] at h
  | some fs => rfl

theorem truthy_iff_getD (r : Option (List Field)) :
    truthy r = true ↔ r.getD [] ≠ [] := by
  cases r with
  | none => simp [truthy]
  | some fs => cases fs <;> simp [truthy]

theorem notTruthy_getD {r : Option (List Field)} (h : ¬truthy r = true) :
    r.getD [] = [] := by
  by_contra hne
  exact h ((truthy_iff_getD r).mpr hne)

theorem chain_match (r1 r2 r3 : Option (List Field)) :
    (if truthy r1 then Except.ok (r1.getD [])
     else if truthy r2 then Except.ok (r2.getD [])
     else if truthy r3 then Except.ok (r3.getD [])
     else Except.error unparsableMsg) =
      (match firstTruthy [r1, r2, r3] with
        | some fs => (Except.ok fs : Except String (List Field))
        | none => Except.error unparsableMsg) := by
  rw [firstTruthy_cons, firstTruthy_cons, firstTruthy_cons]
  by_cases h1 : truthy r1
  · rw [if_pos h1, if_pos h1, truthy_getD h1]
    rfl
  · rw [if_neg h1, if_neg h1]
    by_cases h2 : truthy r2
    · rw [if_pos h2, if_pos h2, truthy_getD h2]
      rfl
    · rw [if_neg h2, if_neg h2]
      by_cases h3 : truthy r3
      · rw [if_pos h3, if_pos h3, truthy_getD h3]
        rfl
      · rw [if_neg h3, if_neg h3]
        rfl

theorem parse_sql_fields_eq_chain (sql : String) :
    parse_sql_fields sql =
      (if truthy (if hasSub (upperL (pyStripL sql.data)) "SELECT".data
            then try_parse_select_from (pyStripL sql.data) else none)
       then Except.ok ((if hasSub (upperL (pyStripL sql.data)) "SELECT".data
            then try_parse_select_from (pyStripL sql.data) else none).getD [])
       else if truthy (if hasSub (upperL (pyStripL sql.data)) "SELECT".data
            then try_parse_select_fields (pyStripL sql.data) else none)
       then Except.ok ((if hasSub (upperL (pyStripL sql.data)) "SELECT".data
            then try_parse_select_fields (pyStripL sql.data) else none).getD [])
       else if truthy (try_parse_field_list (pyStripL sql.data))
       then Except.ok ((try_parse_field_list (pyStripL sql.data)).getD [])
       else Except.error unparsableMsg) := rfl

/-- C3: `parse_sql_fields` raises `ValueError('无法解析SQL')` exactly when
all three strategies (applied to the stripped input) yield zero fields,
and otherwise returns the first truthy strategy result in source order. -/
theorem parse_sql_fields_first_nonempty (sql : String) :
    (parse_sql_fields sql =
      (match firstTruthy [try_parse_select_from (pyStripL sql.data),
          try_parse_select_fields (pyStripL sql.data),
          try_parse_field_list (pyStripL sql.data)] with
        | some fs => (Except.ok fs : Except String (List Field))
        | none => Except.error unparsableMsg)) ∧
    (parse_sql_fields sql = Except.error unparsableMsg ↔
      (try_parse_select_from (pyStripL sql.data)).getD [] = [] ∧
      (try_parse_select_fields (pyStripL sql.data)).getD [] = [] ∧
      (try_parse_field_list (pyStripL sql.data)).getD [] = []) := by
  have hg1 := guard_select_from_eq (pyStripL sql.data)
  have hg2 := guard_select_fields_eq (pyStripL sql.data)
  have main : parse_sql_fields sql =
      (match firstTruthy [try_parse_select_from (pyStripL sql.data),
          try_parse_select_fields (pyStripL sql.data),
          try_parse_field_list (pyStripL sql.data)] with
        | some fs => (Except.ok fs : Except String (List Field))
        | none => Except.error unparsableMsg) := by
    rw [parse_sql_fields_eq_chain, hg1, hg2]
    exact chain_match _ _ _
  refine ⟨main, ?_⟩
  rw [main, firstTruthy_cons, firstTruthy_cons, firstTruthy_cons]
  by_cases h1 : truthy (try_parse_select_from (pyStripL sql.data))
  · rw [if_pos h1, truthy_getD h1]
    refine iff_of_false (by simp) ?_
    rintro ⟨hc1, -, -⟩
    exact (truthy_iff_getD _).mp h1 hc1
  · rw [if_neg h1]
    by_cases h2 : truthy (try_parse_select_fields (pyStripL sql.data))
    · rw [if_pos h2, truthy_getD h2]
      refine iff_of_false (by simp) ?_
      rintro ⟨-, hc2, -⟩
      exact (truthy_iff_getD _).mp h2 hc2
    · rw [if_neg h2]
      by_cases h3 : truthy (try_parse_field_list (pyStripL sql.data))
      · rw [if_pos h3, truthy_getD h3]
        refine iff_of_false (by simp) ?_
        rintro ⟨-, -, hc3⟩
        exact (truthy_iff_getD _).mp h3 hc3
      · rw [if_neg h3]
        exact iff_of_true rfl
          ⟨notTruthy_getD h1, notTruthy_getD h2, notTruthy_getD h3⟩

/-! Claim C1. -/

/-- C1 counterexample: on the spec input the field named `amt` does not
carry the comment `comment` — the comment map key built from the single
clause line is the whole text before the `--`, which never equals the
pre-alias name `credit_amt` used for the lookup. -/
theorem parse_fields_alias_comment_cex :
    parse_sql_fields "SELECT org_id, credit_amt AS amt -- comment\nFROM t" =
      Except.ok [⟨"org_id", none, "org_id"⟩, ⟨"amt", some "amt", "amt"⟩] ∧
    ¬ ∃ f ∈ [⟨"org_id", none, "org_id"⟩, (⟨"amt", some "amt", "amt"⟩ : Field)],
        f.name = "amt" ∧ f.comment = "comment" := by
  constructor
  · decide
  · decide

/-- C1 (amended): on the input
`SELECT org_id, credit_amt AS amt -- comment\nFROM t` the parser returns
`org_id` with comment defaulting to `org_id`, and `amt` with comment
defaulting to `amt`: the trailing `-- comment` is stored in the lookup
under the key `org_id, credit_amt AS amt` (the whole line before `--`),
which matches no pre-alias field name, so the alias comment falls back to
the resolved display name. -/
theorem parse_fields_alias_comment_amended :
    parse_sql_fields "SELECT org_id, credit_amt AS amt -- comment\nFROM t" =
      Except.ok [⟨"org_id", none, "org_id"⟩, ⟨"amt", some "amt", "amt"⟩] := by
  decide

/-! Claim C6. -/

/-- C6 counterexample: on `x FROM y` every strategy runs, the field-list
strategy splits one expression and expression-level filtering rejects it,
yet the raised error is the single `ValueError('无法解析SQL')` — the same
`UnparsableSQL` error, not a distinct `NoFieldsRecognized` kind. -/
theorem no_fields_recognized_cex :
    try_parse_field_list (pyStripL "x FROM y".data) = some [] ∧
      parse_sql_fields "x FROM y" = Except.error unparsableMsg := by
  constructor
  · decide
  · decide

/-- C6 (amended): `parse_sql_fields` raises only one error, the
`ValueError('无法解析SQL')` (`UnparsableSQL`); an empty field sequence
after expression-level filtering is treated as strategy failure and falls
through to this same error, and no distinct `NoFieldsRecognized` error
exists in the core (the transport-layer empty-result check is
unreachable). -/
theorem parse_sql_fields_error_unique (sql : String) (e : String)
    (h : parse_sql_fields sql = Except.error e) : e = unparsableMsg := by
  rw [parse_sql_fields_eq_chain, guard_select_from_eq,
    guard_select_fields_eq] at h
  split_ifs at h
  injection h with he
  exact he.symm

/-- C6 amended witness at the counterexample input. -/
theorem parse_sql_fields_error_unique_witness :
    parse_sql_fields "x FROM y" = Except.error "无法解析SQL" ∧
      ("无法解析SQL" : String) = unparsableMsg :=
  ⟨by decide, parse_sql_fields_error_unique "x FROM y" "无法解析SQL" (by decide)⟩

/-! Claim C10. -/

/-- C10: whenever `parse_sql_fields` returns normally, the returned field
sequence is non-empty: every strategy result is returned only when truthy,
so an empty list can never be a normal result. -/
theorem parse_sql_fields_ok_nonempty (sql : String) (fs : List Field)
    (h : parse_sql_fields sql = Except.ok fs) : fs ≠ [] := by
  rw [parse_sql_fields_eq_chain, guard_select_from_eq,
    guard_select_fields_eq] at h
  split_ifs at h with h1 h2 h3
  · injection h with hh
    rw [← hh]
    exact (truthy_iff_getD _).mp h1
  · injection h with hh
    rw [← hh]
    exact (truthy_iff_getD _).mp h2
  · injection h with hh
    rw [← hh]
    exact (truthy_iff_getD _).mp h3

/-- C10 witness at a concrete bare field list. -/
theorem parse_sql_fields_ok_nonempty_witness :
    parse_sql_fields "a, b" =
        Except.ok [⟨"a", none, "a"⟩, ⟨"b", none, "b"⟩] ∧
      ([⟨"a", none, "a"⟩, (⟨"b", none, "b"⟩ : Field)] : List Field) ≠ [] :=
  ⟨by decide,
    parse_sql_fields_ok_nonempty "a, b"
      [⟨"a", none, "a"⟩, ⟨"b", none, "b"⟩] (by decide)⟩

/-! Claims C4 and C5. -/

theorem mddlItems_map_databaseType (O : RegexOracle) (fields : List Field)
    (custom_rules : List (String × List TypeRule)) :
    ∀ dbs : List String,
      (mddlItems O fields custom_rules dbs).map (fun it => it.databaseType) =
        dbs.filter (fun d => (configGet d).isSome) := by
  intro dbs
  induction dbs with
  | nil => rfl
  | cons d rest ih =>
    simp only [List.filter_cons]
    by_cases h : (configGet d).isSome
    · rw [if_pos h]
      unfold mddlItems
      rw [if_pos h, List.map_cons, ih]
    · rw [if_neg h]
      unfold mddlItems
      rw [if_neg h, ih]

/-- C4: `generate_multiple_ddls` produces one item per requested dialect
that is present in `DATABASE_CONFIGS`, in request order, silently skipping
the unknown identifiers; it answers with a single DDL string exactly when
one item was produced and with the item list otherwise. -/
theorem generate_multiple_ddls_spec (O : RegexOracle) (fields : List Field)
    (custom_rules : List (String × List TypeRule)) (dbs : List String) :
    ((mddlItems O fields custom_rules dbs).map (fun it => it.databaseType) =
      dbs.filter (fun d => (configGet d).isSome)) ∧
    ((mddlItems O fields custom_rules dbs).length = 1 →
      ∃ it, mddlItems O fields custom_rules dbs = [it] ∧
        generate_multiple_ddls O fields custom_rules dbs = .single it.ddl) ∧
    ((mddlItems O fields custom_rules dbs).length ≠ 1 →
      generate_multiple_ddls O fields custom_rules dbs =
        .multiple (mddlItems O fields custom_rules dbs)) := by
  refine ⟨mddlItems_map_databaseType O fields custom_rules dbs, ?_, ?_⟩
  · intro hlen
    obtain ⟨it, hit⟩ : ∃ it, mddlItems O fields custom_rules dbs = [it] := by
      match hm : mddlItems O fields custom_rules dbs with
      | [] => rw [hm] at hlen; simp at hlen
      | [x] => exact ⟨x, rfl⟩
      | x :: y :: rest => rw [hm] at hlen; simp at hlen
    refine ⟨it, hit, ?_⟩
    unfold generate_multiple_ddls
    rw [hit]
  · intro hlen
    unfold generate_multiple_ddls
    match hm : mddlItems O fields custom_rules dbs with
    | [] => rfl
    | [x] => rw [hm] at hlen; simp at hlen
    | x :: y :: rest => rfl

/-- C4 witness: a request with one known, one unknown and another known
dialect keeps exactly the known ones and answers with the item list. -/
theorem generate_multiple_ddls_spec_witness :
    ((mddlItems noRegex [⟨"a", none, "a"⟩] [] ["spark", "oracle", "mysql"]).map
        (fun it => it.databaseType) =
      ["spark", "oracle", "mysql"].filter (fun d => (configGet d).isSome)) ∧
    generate_multiple_ddls noRegex [⟨"a", none, "a"⟩] []
        ["spark", "oracle", "mysql"] =
      .multiple (mddlItems noRegex [⟨"a", none, "a"⟩] []
        ["spark", "oracle", "mysql"]) :=
  ⟨(generate_multiple_ddls_spec noRegex [⟨"a", none, "a"⟩] []
      ["spark", "oracle", "mysql"]).1,
    (generate_multiple_ddls_spec noRegex [⟨"a", none, "a"⟩] []
      ["spark", "oracle", "mysql"]).2.2 (by decide)⟩

/-- C5 counterexample: a request naming only the unknown dialect `oracle`
produces no DDL at all — `generate_multiple_ddls` answers with an empty
item list instead of falling back to the spark configuration for it. -/
theorem unknown_dialect_fallback_cex :
    configGet "oracle" = none ∧
      generate_multiple_ddls noRegex [⟨"org_id", none, "org_id"⟩] [] ["oracle"] =
        .multiple [] := by
  constructor
  · decide
  · decide

/-- C5 (amended): at the request level an unknown dialect identifier is
skipped, so no DDL and no label are produced for it; the spark-config
fallback lives only in `generate_ddl` itself, where an unknown identifier
resolves the dialect configuration (prefix, comment style, primary-key and
engine flags) to the spark entry of `DATABASE_CONFIGS` while the rules
lookup and the type mapping still use the original identifier. -/
theorem unknown_dialect_fallback (O : RegexOracle) (fields : List Field)
    (custom_rules : List (String × List TypeRule)) (d : String)
    (h : configGet d = none) :
    (∀ dbs : List String,
      d ∉ (mddlItems O fields custom_rules dbs).map (fun it => it.databaseType)) ∧
    generate_ddl_parts O fields custom_rules d =
      generate_ddl_partsC ⟨"CREATE TABLE IF NOT EXISTS", "INLINE", false, false⟩
        O fields custom_rules d ∧
    configGet "spark" =
      some ⟨"CREATE TABLE IF NOT EXISTS", "INLINE", false, false⟩ := by
  refine ⟨?_, ?_, by decide⟩
  · intro dbs hmem
    rw [mddlItems_map_databaseType] at hmem
    obtain ⟨-, hsome⟩ := List.mem_filter.mp hmem
    rw [h] at hsome
    simp at hsome
  · unfold generate_ddl_parts
    rw [h]
    rfl

/-- C5 amended witness at the unknown identifier `oracle`. -/
theorem unknown_dialect_fallback_witness :
    configGet "oracle" = none ∧
      ("oracle" ∉ (mddlItems noRegex [⟨"a", none, "a"⟩] [] ["oracle"]).map
        (fun it => it.databaseType)) ∧
      generate_ddl_parts noRegex [⟨"a", none, "a"⟩] [] "oracle" =
        generate_ddl_partsC
          ⟨"CREATE TABLE IF NOT EXISTS", "INLINE", false, false⟩
          noRegex [⟨"a", none, "a"⟩] [] "oracle" :=
  ⟨by decide,
    (unknown_dialect_fallback noRegex [⟨"a", none, "a"⟩] [] "oracle"
      (by decide)).1 ["oracle"],
    (unknown_dialect_fallback noRegex [⟨"a", none, "a"⟩] [] "oracle"
      (by decide)).2.1⟩

/-! Claims C7 and C8. -/

theorem applyRules_eq_find (O : RegexOracle) (name comment : String) :
    ∀ rs : List TypeRule,
      applyRules O name comment rs =
        (rs.find? (ruleMatches O name comment)).map
          (fun r => ({ type := r.dataType, precision := r.precision,
                       scale := r.scale, length := r.length } : InferredType)) := by
  intro rs
  induction rs with
  | nil => rfl
  | cons r rest ih =>
    by_cases h : ruleMatches O name comment r
    · simp [applyRules, List.find?, h]
    · simp [applyRules, List.find?, h, ih]

/-- C7: with caller rules supplied, inference is exactly first-match
search over the stably priority-sorted rules, the matching rule's type and
parameters carried through unchanged, and the default chain only fires
when no rule matches; concretely a contains-rule on `amt` gives
`credit_amt` the type `DECIMAL(10, 2)` on MySQL, overriding the default
`DECIMAL(24, 6)`; caller order breaks priority ties; and a keyword whose
regex fails to compile is skipped without aborting the remaining
keywords. -/
theorem infer_field_type_rules_spec :
    (∀ (O : RegexOracle) (nm cm : String) (rules : List TypeRule),
      rules ≠ [] →
      infer_field_type O nm cm (some rules) =
        (match (sortRules rules).find? (ruleMatches O (lowerS nm) (lowerS cm)) with
         | some r => { type := r.dataType, precision := r.precision,
                       scale := r.scale, length := r.length }
         | none => inferDefault (lowerS nm) (lowerS cm))) ∧
    (∀ O : RegexOracle,
      infer_field_type O "credit_amt" "credit_amt"
          (some [⟨["amt"], some "contains", some "name", "DECIMAL",
                 some 0, some 10, some 2, none⟩]) =
        ⟨"DECIMAL", some 10, some 2, none⟩) ∧
    map_data_type ⟨"DECIMAL", some 10, some 2, none⟩ "mysql" = "DECIMAL(10, 2)" ∧
    map_data_type (infer_field_type noRegex "credit_amt" "credit_amt" none)
        "mysql" = "DECIMAL(24, 6)" ∧
    (∀ O : RegexOracle,
      infer_field_type O "credit_amt" "x"
          (some [⟨["amt"], some "contains", some "name", "FIRST",
                 some 1, none, none, none⟩,
                 ⟨["amt"], some "contains", some "name", "SECOND",
                 some 1, none, none, none⟩]) =
        ⟨"FIRST", none, none, none⟩) ∧
    infer_field_type ⟨fun p t => if p = "[" then none else some (containsS t p)⟩
        "credit_amt" "x"
        (some [⟨["[", "amt"], some "regex", some "name", "DECIMAL",
               some 0, some 10, some 2, none⟩]) =
      ⟨"DECIMAL", some 10, some 2, none⟩ := by
  refine ⟨?_, ?_, by decide, by decide, ?_, by decide⟩
  · intro O nm cm rules hne
    unfold infer_field_type
    dsimp only
    have hie : rules.isEmpty = false := by
      cases rules with
      | nil => exact absurd rfl hne
      | cons a t => rfl
    rw [hie]
    simp only [Bool.false_eq_true, if_false]
    rw [applyRules_eq_find]
    cases hf : (sortRules rules).find? (ruleMatches O (lowerS nm) (lowerS cm)) with
    | none => rfl
    | some r => rfl
  · intro O
    rfl
  · intro O
    rfl

/-- C7 witness: the first-match characterization applied to the concrete
`amt` contains-rule on the field name `credit_amt`. -/
theorem infer_field_type_rules_spec_witness :
    ([⟨["amt"], some "contains", some "name", "DECIMAL",
       some 0, some 10, some 2, none⟩] : List TypeRule) ≠ [] ∧
    infer_field_type noRegex "credit_amt" "credit_amt"
        (some [⟨["amt"], some "contains", some "name", "DECIMAL",
               some 0, some 10, some 2, none⟩]) =
      (match (sortRules [⟨["amt"], some "contains", some "name", "DECIMAL",
            some 0, some 10, some 2, none⟩]).find?
          (ruleMatches noRegex (lowerS "credit_amt") (lowerS "credit_amt")) with
       | some r => { type := r.dataType, precision := r.precision,
                     scale := r.scale, length := r.length }
       | none => inferDefault (lowerS "credit_amt") (lowerS "credit_amt")) :=
  ⟨by decide,
    infer_field_type_rules_spec.1 noRegex "credit_amt" "credit_amt"
      [⟨["amt"], some "contains", some "name", "DECIMAL",
        some 0, some 10, some 2, none⟩] (by decide)⟩

/-- C8: in the default chain (no caller rules), a lowered name that
escapes the currency rung and the code rung, carries a date marker and no
day-count marker infers DATE; and a name carrying a code marker infers
STRING even when it also carries a date marker, because the code rung
precedes the date rung. -/
theorem infer_default_chain_spec :
    (∀ (O : RegexOracle) (nm cm : String),
      isCurrencyRung (lowerS nm) (lowerS cm) = false →
      isCodeRung (lowerS nm) = false →
      hasDateMarker (lowerS nm) = true →
      hasDayMarker (lowerS nm) = false →
      infer_field_type O nm cm none = ⟨"DATE", none, none, none⟩) ∧
    (∀ (O : RegexOracle) (nm cm : String),
      containsS (lowerS nm) "code" = true →
      hasDateMarker (lowerS nm) = true →
      infer_field_type O nm cm none = ⟨"STRING", none, none, none⟩) := by
  constructor
  · intro O nm cm h1 h2 h3 h4
    show inferDefault (lowerS nm) (lowerS cm) = _
    unfold inferDefault
    simp [h1, h2, h3, h4]
  · intro O nm cm hcode hdate
    show inferDefault (lowerS nm) (lowerS cm) = _
    have h2 : isCodeRung (lowerS nm) = true := by
      unfold isCodeRung
      rw [hcode]
      simp
    unfold inferDefault
    by_cases h1 : isCurrencyRung (lowerS nm) (lowerS cm)
    · simp [h1]
    · simp [h1, h2]

/-- C8 witness: `business_date` passes every hypothesis of the first part
and infers DATE; `trade_code_date` carries both markers and infers
STRING. -/
theorem infer_default_chain_spec_witness :
    (isCurrencyRung (lowerS "business_date") (lowerS "business_date") = false ∧
     isCodeRung (lowerS "business_date") = false ∧
     hasDateMarker (lowerS "business_date") = true ∧
     hasDayMarker (lowerS "business_date") = false ∧
     infer_field_type noRegex "business_date" "business_date" none =
       ⟨"DATE", none, none, none⟩) ∧
    (containsS (lowerS "trade_code_date") "code" = true ∧
     infer_field_type noRegex "trade_code_date" "x" none =
       ⟨"STRING", none, none, none⟩) :=
  ⟨⟨by decide, by decide, by decide, by decide,
    infer_default_chain_spec.1 noRegex "business_date" "business_date"
      (by decide) (by decide) (by decide) (by decide)⟩,
   ⟨by decide,
    infer_default_chain_spec.2 noRegex "trade_code_date" "x"
      (by decide) (by decide)⟩⟩

/-! Claim C9. -/

theorem firstIcode_eq_find (fields : List Field) :
    firstIcode fields =
      (fields.find? (fun f => endsWithS (lowerS f.name) "icode")).map
        (fun f => f.name) := by
  induction fields with
  | nil => rfl
  | cons f rest ih =>
    by_cases h : endsWithS (lowerS f.name) "icode"
    · simp [firstIcode, List.find?, h]
    · simp [firstIcode, List.find?, h, ih]

theorem firstPlainId_eq_find (fields : List Field) :
    firstPlainId fields =
      (fields.find? (fun f => endsWithS (lowerS f.name) "id" &&
          !endsWithS (lowerS f.name) "icode")).map (fun f => f.name) := by
  induction fields with
  | nil => rfl
  | cons f rest ih =>
    by_cases h : endsWithS (lowerS f.name) "id" && !endsWithS (lowerS f.name) "icode"
    · simp only [firstPlainId, List.find?, h]
      rfl
    · simp only [firstPlainId, List.find?, h]
      rw [ih]
      simp [h]

theorem match_option_or (o1 o2 o3 : Option String) :
    (match o1 with
     | some nm => some nm
     | none =>
       match o2 with
       | some nm => some nm
       | none => o3) = o1.or (o2.or o3) := by
  cases o1 <;> cases o2 <;> rfl

/-- C9: primary-key selection prefers the first field whose lowered name
ends in `icode`, else the first whose lowered name ends in `id` without
ending in `icode`, else the first field; on
`[org_id, cust_icode, business_date]` it picks `cust_icode`; the selected
key is rendered as a `PRIMARY KEY` line for the `mysql` config (which sets
`add_pk`), while a config without `add_pk` (spark) adds no such line — its
part list has exactly `fields.length + 3` entries. -/
theorem select_primary_key_spec :
    (∀ fields : List Field,
      select_primary_key fields =
        ((fields.find? (fun f => endsWithS (lowerS f.name) "icode")).map
            (fun f => f.name)).or
          (((fields.find? (fun f => endsWithS (lowerS f.name) "id" &&
              !endsWithS (lowerS f.name) "icode")).map (fun f => f.name)).or
            ((fields.head?).map (fun f => f.name)))) ∧
    select_primary_key
        [⟨"org_id", none, "org_id"⟩, ⟨"cust_icode", none, "cust_icode"⟩,
         ⟨"business_date", none, "business_date"⟩] = some "cust_icode" ∧
    (∀ (O : RegexOracle) (fields : List Field)
        (custom_rules : List (String × List TypeRule)) (pk : String),
      select_primary_key fields = some pk → pk ≠ "" →
      ("   ,PRIMARY KEY (" ++ pk ++ ")") ∈
        generate_ddl_parts O fields custom_rules "mysql") ∧
    (∀ (O : RegexOracle) (fields : List Field)
        (custom_rules : List (String × List TypeRule)),
      (generate_ddl_parts O fields custom_rules "spark").length =
        fields.length + 3) := by
  refine ⟨?_, by decide, ?_, ?_⟩
  · intro fields
    cases fields with
    | nil => rfl
    | cons f rest =>
      show (match firstIcode (f :: rest) with
            | some nm => some nm
            | none =>
              match firstPlainId (f :: rest) with
              | some nm => some nm
              | none => ((f :: rest).head?).map (fun g : Field => g.name)) = _
      rw [firstIcode_eq_find, firstPlainId_eq_find]
      exact match_option_or _ _ _
  · intro O fields custom_rules pk hpk hne
    have hcfg : configGet "mysql" =
        some ⟨"CREATE TABLE IF NOT EXISTS", "INLINE", true, true⟩ := by decide
    unfold generate_ddl_parts
    rw [hcfg]
    unfold generate_ddl_partsC
    simp only [hpk, if_neg hne]
    simp [List.mem_append, List.mem_cons]
  · intro O fields custom_rules
    have hcfg : configGet "spark" =
        some ⟨"CREATE TABLE IF NOT EXISTS", "INLINE", false, false⟩ := by decide
    unfold generate_ddl_parts
    rw [hcfg]
    unfold generate_ddl_partsC
    simp [adjustFields]

/-- C9 witness: the concrete three-field list under the `mysql` config
carries the `cust_icode` primary-key line. -/
theorem select_primary_key_spec_witness :
    select_primary_key
        [⟨"org_id", none, "org_id"⟩, ⟨"cust_icode", none, "cust_icode"⟩,
         ⟨"business_date", none, "business_date"⟩] = some "cust_icode" ∧
    ("   ,PRIMARY KEY (" ++ "cust_icode" ++ ")") ∈
      generate_ddl_parts noRegex
        [⟨"org_id", none, "org_id"⟩, ⟨"cust_icode", none, "cust_icode"⟩,
         ⟨"business_date", none, "business_date"⟩] [] "mysql" :=
  ⟨by decide,
    select_primary_key_spec.2.2.1 noRegex
      [⟨"org_id", none, "org_id"⟩, ⟨"cust_icode", none, "cust_icode"⟩,
       ⟨"business_date", none, "business_date"⟩] [] "cust_icode"
      (by decide) (by decide)⟩

end DdlGen
